import Mathlib

/-!
Verification of the MINY video color-pattern generator.

Shallow embedding of the repository's pattern-generation core:
* `src/src/utils/colorFilters.ts` — RGB parsing, the color-filter pipeline
  (`parseRGB`, `rgbToString`, `enhanceVibrance`, `applyVibrantFilter`,
  `applyDynamicFilter`, `applyContrastFilter`, `applyNeonFilter`,
  `applyGradientFlow`, `applyColorFilter`);
* `HexagonalBarcodeGenerator.tsx` — the brightest-pixel extractor
  (`getBrightestColor`), the row-major generation loop with its shared
  hex-index counter, the cancellation-flag protocol, and the per-cell
  previous-color argument read from the component's `colors` state array.

Channels are modelled as rationals (JS numbers carry fractional values
between `parseRGB` and the final `Math.round` inside `rgbToString`).
The source's `rgbToString` both rounds and formats; the model splits it
into `rgbToString` (per-channel `Math.round`, kept at the RGB level) and
`renderRGB` (the actual `rgb(r, g, b)` string).
-/

set_option autoImplicit false

namespace VCP

/-- An RGB color; channels are JS numbers, modelled as rationals. -/
structure RGB where
  r : ℚ
  g : ℚ
  b : ℚ
deriving DecidableEq, Repr

/-- All three channels lie in the byte range `[0, 255]`. -/
def RGB.inRange (c : RGB) : Prop :=
  0 ≤ c.r ∧ c.r ≤ 255 ∧ 0 ≤ c.g ∧ c.g ≤ 255 ∧ 0 ≤ c.b ∧ c.b ≤ 255

instance (c : RGB) : Decidable c.inRange := by
  unfold RGB.inRange; infer_instance

/-- JS `Math.round` on a nonnegative number: round half up, `⌊x + 1/2⌋`.
Mathlib's `round` is exactly this function. -/
def jsRound (x : ℚ) : ℤ := round x

/-- The rounding part of the source's `rgbToString`: `Math.round` each
channel (formatting into a string is `renderRGB` below). -/
def rgbToString (c : RGB) : RGB :=
  ⟨(jsRound c.r : ℚ), (jsRound c.g : ℚ), (jsRound c.b : ℚ)⟩

/-- The formatting part of the source's `rgbToString` (and of the template
literal at the end of `getBrightestColor`): the string
`rgb(R, G, B)` with rounded integer channels. -/
def renderRGB (c : RGB) : String :=
  "rgb(" ++ toString (jsRound c.r) ++ ", " ++ toString (jsRound c.g)
    ++ ", " ++ toString (jsRound c.b) ++ ")"

/-! ### `parseRGB`: the regex `rgb\((\d+),\s*(\d+),\s*(\d+)\)` -/

/-- Value of a digit run, as `parseInt` reads it (base 10). -/
def digitsToNat (ds : List Char) : ℕ :=
  ds.foldl (fun n c => 10 * n + (c.toNat - 48)) 0

/-- Try to match the regex `rgb\((\d+),\s*(\d+),\s*(\d+)\)` at the head of
the character list, returning the three captured integers.  The pattern is
deterministic (each `\d+` is a maximal digit run followed by `,` or `)`,
each `\s*` a maximal whitespace run followed by a digit). -/
def matchAt (cs : List Char) : Option (ℕ × ℕ × ℕ) :=
  match cs with
  | 'r' :: 'g' :: 'b' :: '(' :: rest =>
    match rest.span Char.isDigit with
    | (d1, rest1) =>
      if d1 = [] then none else
      match rest1 with
      | ',' :: rest2 =>
        match (rest2.dropWhile Char.isWhitespace).span Char.isDigit with
        | (d2, rest3) =>
          if d2 = [] then none else
          match rest3 with
          | ',' :: rest4 =>
            match (rest4.dropWhile Char.isWhitespace).span Char.isDigit with
            | (d3, rest5) =>
              if d3 = [] then none else
              match rest5 with
              | ')' :: _ => some (digitsToNat d1, digitsToNat d2, digitsToNat d3)
              | _ => none
          | _ => none
      | _ => none
  | _ => none

/-- JS `String.prototype.match` with an unanchored regex: the leftmost
position where `matchAt` succeeds. -/
def findMatch : List Char → Option (ℕ × ℕ × ℕ)
  | [] => none
  | c :: cs =>
    match matchAt (c :: cs) with
    | some v => some v
    | none => findMatch cs

/-- `parseRGB` from `colorFilters.ts`: extract the first
`rgb(<digits>, <digits>, <digits>)` occurrence; on no match return black. -/
def parseRGB (color : String) : RGB :=
  match findMatch color.toList with
  | none => ⟨0, 0, 0⟩
  | some (a, b, c) => ⟨(a : ℚ), (b : ℚ), (c : ℚ)⟩

/-! ### The filter pipeline -/

/-- `Math.max(rgb.r, rgb.g, rgb.b)`. -/
def rgbMax (c : RGB) : ℚ := max c.r (max c.g c.b)

/-- `enhanceVibrance` from `colorFilters.ts`: boost the channels equal to
the maximum by ×1.3 and the others by ×0.7, clamped at 255; black is
returned unchanged. -/
def enhanceVibrance (rgb : RGB) : RGB :=
  if rgbMax rgb = 0 then rgb
  else
    ⟨min 255 (rgb.r * (if rgb.r = rgbMax rgb then 1.3 else 0.7)),
     min 255 (rgb.g * (if rgb.g = rgbMax rgb then 1.3 else 0.7)),
     min 255 (rgb.b * (if rgb.b = rgbMax rgb then 1.3 else 0.7))⟩

/-- `applyVibrantFilter` from `colorFilters.ts`. -/
def applyVibrantFilter (rgb : RGB) : RGB :=
  let enhanced := enhanceVibrance rgb
  let brightness := (enhanced.r + enhanced.g + enhanced.b) / (3 * 255)
  let boost : ℚ := if brightness < 0.5 then 1.4 else 1.1
  rgbToString
    ⟨min 255 (enhanced.r * boost),
     min 255 (enhanced.g * boost),
     min 255 (enhanced.b * boost)⟩

/-- `applyDynamicFilter` from `colorFilters.ts`. -/
def applyDynamicFilter (rgb : RGB) : RGB :=
  let brightness := (rgb.r + rgb.g + rgb.b) / (3 * 255)
  let contrast : ℚ := if brightness > 0.5 then 1.3 else 0.8
  rgbToString
    ⟨min 255 (max 0 ((rgb.r - 128) * contrast + 128)),
     min 255 (max 0 ((rgb.g - 128) * contrast + 128)),
     min 255 (max 0 ((rgb.b - 128) * contrast + 128))⟩

/-- `applyContrastFilter` from `colorFilters.ts`. -/
def applyContrastFilter (rgb : RGB) : RGB :=
  let threshold : ℚ := 128
  let contrastBoost : ℚ := 1.4
  rgbToString
    ⟨if rgb.r > threshold then min 255 (rgb.r * contrastBoost) else rgb.r / contrastBoost,
     if rgb.g > threshold then min 255 (rgb.g * contrastBoost) else rgb.g / contrastBoost,
     if rgb.b > threshold then min 255 (rgb.b * contrastBoost) else rgb.b / contrastBoost⟩

/-- `applyNeonFilter` from `colorFilters.ts`. -/
def applyNeonFilter (rgb : RGB) : RGB :=
  let neonBoost : ℚ := 1.5
  let secondaryBoost : ℚ := 0.6
  rgbToString
    ⟨if rgb.r = rgbMax rgb then min 255 (rgb.r * neonBoost) else rgb.r * secondaryBoost,
     if rgb.g = rgbMax rgb then min 255 (rgb.g * neonBoost) else rgb.g * secondaryBoost,
     if rgb.b = rgbMax rgb then min 255 (rgb.b * neonBoost) else rgb.b * secondaryBoost⟩

/-- `applyGradientFlow` from `colorFilters.ts`: with no previous color the
saturation-pushed candidate; otherwise a 70/30 blend of the pushed
candidate with the pushed previous color. -/
def applyGradientFlow (rgb : RGB) (prev : Option RGB) : RGB :=
  match prev with
  | none => rgbToString (enhanceVibrance rgb)
  | some p =>
    let flowFactor : ℚ := 0.3
    let enhanced := enhanceVibrance rgb
    let enhancedPrev := enhanceVibrance p
    rgbToString
      ⟨enhanced.r * (1 - flowFactor) + enhancedPrev.r * flowFactor,
       enhanced.g * (1 - flowFactor) + enhancedPrev.g * flowFactor,
       enhanced.b * (1 - flowFactor) + enhancedPrev.b * flowFactor⟩

/-- The `FilterType` union from `ColorFilters.tsx`:
`none | frame-based | vibrant | dynamic | contrast | neon | gradient-flow`. -/
inductive FilterType where
  | noFilter
  | frameBased
  | vibrant
  | dynamic
  | contrast
  | neon
  | gradientFlow
deriving DecidableEq, Repr

/-- The `switch` of `applyColorFilter`, at the RGB level (the input string
already parsed, the output kept as channel values).  `frame-based` and the
`default` arm (hit by `none`) return the input color unchanged, as the
source returns the original string. -/
def applyColorFilter (rgb : RGB) (filter : FilterType) (prev : Option RGB) : RGB :=
  match filter with
  | FilterType.vibrant => applyVibrantFilter rgb
  | FilterType.dynamic => applyDynamicFilter rgb
  | FilterType.frameBased => rgb
  | FilterType.contrast => applyContrastFilter rgb
  | FilterType.neon => applyNeonFilter rgb
  | FilterType.gradientFlow => applyGradientFlow rgb prev
  | FilterType.noFilter => rgb

/-- `previousColor ? parseRGB(previousColor) : undefined` — the empty
string is falsy in JS, so it yields `undefined`, not a parsed color. -/
def parsePrev (previousColor : Option String) : Option RGB :=
  match previousColor with
  | none => none
  | some s => if s = "" then none else some (parseRGB s)

/-- `applyColorFilter` at the string level, exactly as in the source:
parse the color and the optional previous color, dispatch on the filter,
and render the result (passthrough arms return the original string). -/
def applyColorFilterS (color : String) (filter : FilterType)
    (previousColor : Option String) : String :=
  let rgb := parseRGB color
  let prev := parsePrev previousColor
  match filter with
  | FilterType.vibrant => renderRGB (applyVibrantFilter rgb)
  | FilterType.dynamic => renderRGB (applyDynamicFilter rgb)
  | FilterType.frameBased => color
  | FilterType.contrast => renderRGB (applyContrastFilter rgb)
  | FilterType.neon => renderRGB (applyNeonFilter rgb)
  | FilterType.gradientFlow => renderRGB (applyGradientFlow rgb prev)
  | FilterType.noFilter => color

/-! ### `HexagonalBarcodeGenerator.tsx`: the brightest-pixel extractor -/

/-- One pixel of a captured frame (`data[i]`, `data[i+1]`, `data[i+2]`;
the alpha byte is never read).  A frame buffer is the row-major list of
its pixels. -/
structure Pix where
  r : ℕ
  g : ℕ
  b : ℕ
deriving DecidableEq, Repr

/-- `r * 0.299 + g * 0.587 + b * 0.114`, the per-pixel brightness of
`getBrightestColor`. -/
def lum (p : Pix) : ℚ := (p.r : ℚ) * 0.299 + (p.g : ℚ) * 0.587 + (p.b : ℚ) * 0.114

/-- The scan loop of `getBrightestColor`: running maximum brightness
(starting at 0) and current brightest pixel (starting black), updated on a
strict `>` comparison. -/
def briLoop : List Pix → ℚ → Pix → Pix
  | [], _, best => best
  | p :: ps, maxBrightness, best =>
    if lum p > maxBrightness then briLoop ps (lum p) p
    else briLoop ps maxBrightness best

/-- `getBrightestColor` up to the final string template: scan for the
brightest pixel, then boost all channels ×1.2 (clamped at 255) when the
pixel has a positive channel.  Rounding happens in the string template,
i.e. in `renderRGB`. -/
def getBrightestColor (pixels : List Pix) : RGB :=
  let best := briLoop pixels 0 ⟨0, 0, 0⟩
  let maxChannel := max best.r (max best.g best.b)
  if maxChannel > 0 then
    ⟨min 255 ((best.r : ℚ) * 1.2),
     min 255 ((best.g : ℚ) * 1.2),
     min 255 ((best.b : ℚ) * 1.2)⟩
  else ⟨(best.r : ℚ), (best.g : ℚ), (best.b : ℚ)⟩

/-- The string `getBrightestColor` actually returns. -/
def getBrightestColorStr (pixels : List Pix) : String :=
  renderRGB (getBrightestColor pixels)

/-! ### The color-mode generation loop (claim C1)

In `generatePattern`, for each cell the raw color is extracted, pushed
onto the local `newColors` array, and `drawHexagon` is called; inside
`drawHexagon` the filter receives
`index > 0 ? colors[index - 1] : undefined`, where `colors` is the React
state array captured by the effect closure — NOT the in-progress
`newColors`.  For a run started from the initial state that captured
array is `[]`. -/

/-- What one cell's processing produced: the raw extracted color, the
previous-color argument handed to `applyColorFilter`, and the filtered
color the hexagon was filled with. -/
structure CellProc where
  raw : String
  prevA : Option String
  filtered : String
deriving DecidableEq, Repr

/-- `index > 0 ? colors[index - 1] : undefined` against the captured
`colors` state array (out-of-bounds indexing yields `undefined`). -/
def prevArg (colorsState : List String) (index : ℕ) : Option String :=
  if index > 0 then colorsState.get? (index - 1) else none

/-- The color-mode cell loop: for each sampled frame, extract the raw
color and apply the filter with the previous-color argument read from the
captured `colors` state array. -/
def runColorCellsAux (filter : FilterType) (colorsState : List String) :
    List (List Pix) → ℕ → List CellProc
  | [], _ => []
  | frame :: frames, index =>
    let raw := getBrightestColorStr frame
    ⟨raw, prevArg colorsState index,
      applyColorFilterS raw filter (prevArg colorsState index)⟩
      :: runColorCellsAux filter colorsState frames (index + 1)

/-- A color-mode generation run over the given sampled frames, with
`colorsState` the `colors` state array captured by the effect closure. -/
def runColorCells (frames : List (List Pix)) (filter : FilterType)
    (colorsState : List String) : List CellProc :=
  runColorCellsAux filter colorsState frames 0

/-! ### The cancellation protocol (claim C3)

The loop body is: check `cancelled` → suspend on the seek → draw the
hexagon → update progress.  `k` abstracts the moment the flag is set: the
flag is raised while cell `k`'s seek is in flight, so the checks of
iterations `> k` observe it (and earlier checks do not). -/

/-- Observable events of a generation run. -/
inductive Ev where
  | seek : ℕ → Ev
  | render : ℕ → Ev
  | progress : ℕ → Ev
deriving DecidableEq, Repr

/-- The loop of `generatePattern` for `n` cells when the cancellation flag
is set during cell `k`'s seek: iteration `i` first checks the flag (set
iff `k < i`), returning if it is observed, otherwise suspends on the seek,
renders the cell and reports progress. -/
def runEventsAux (k : ℕ) : ℕ → ℕ → List Ev
  | 0, _ => []
  | rem + 1, i =>
    if k < i then []
    else Ev.seek i :: Ev.render i :: Ev.progress i :: runEventsAux k rem (i + 1)

/-- Event trace of a run over `n` cells with the flag raised during cell
`k`'s seek (take `k ≥ n` for a run that is never cancelled). -/
def runEvents (n k : ℕ) : List Ev := runEventsAux k n 0

/-! ### The row-major cell loop and frame timestamps (claim C5) -/

/-- One grid cell as the loop processes it: its row, its column, and the
video timestamp `hexIndex / totalHexagons * duration` it is sampled at. -/
structure CellT where
  row : ℕ
  col : ℕ
  time : ℚ
deriving DecidableEq, Repr

/-- Inner `for (col …)` loop of `generatePattern`, threading the shared
`hexIndex` counter; returns the cells produced and the updated counter. -/
def colLoopAux (row total : ℕ) (duration : ℚ) :
    ℕ → ℕ → ℕ → List CellT × ℕ
  | 0, _, hexIndex => ([], hexIndex)
  | rem + 1, col, hexIndex =>
    let rest := colLoopAux row total duration rem (col + 1) (hexIndex + 1)
    (⟨row, col, (hexIndex : ℚ) / (total : ℚ) * duration⟩ :: rest.1, rest.2)

/-- Outer `for (row …)` loop of `generatePattern`. -/
def rowLoopAux (cols total : ℕ) (duration : ℚ) :
    ℕ → ℕ → ℕ → List CellT × ℕ
  | 0, _, hexIndex => ([], hexIndex)
  | rem + 1, row, hexIndex =>
    let inner := colLoopAux row total duration cols 0 hexIndex
    let rest := rowLoopAux cols total duration rem (row + 1) inner.2
    (inner.1 ++ rest.1, rest.2)

/-- The ordered sequence of cells of a generation run over a grid of
`rows × cols` cells for a video of the given duration. -/
def genCells (rows cols : ℕ) (duration : ℚ) : List CellT :=
  (rowLoopAux cols (rows * cols) duration rows 0 0).1

/-! ### Spec-side definitions -/

/-- Modelled from the spec's words for the contrast filter: a channel
strictly above 128 is multiplied by 1.4 and clamped to 255, a channel at
or below 128 is divided by 1.4 (with the integral rounding of the RGB
data model). -/
def contrastChannel (c : ℚ) : ℚ :=
  if 128 < c then ((jsRound (min 255 (c * 1.4)) : ℤ) : ℚ)
  else ((jsRound (c / 1.4) : ℤ) : ℚ)

/-- Between the pixel `p` and the best pixel of the following pixels (if
any), keep the later one only when its luminance is strictly greater. -/
def pickFirstMax (p : Pix) : Option Pix → Pix
  | none => p
  | some q => if lum q > lum p then q else p

/-- Written from the spec's words for the dominant-color extractor: the
first pixel in scan order attaining the maximal luminance (ties resolved
by first-encountered, because a later pixel replaces the current choice
only when its luminance is strictly greater). -/
def firstMaxPix : List Pix → Option Pix
  | [] => none
  | p :: ps => some (pickFirstMax p (firstMaxPix ps))

/-- Written from the spec's words: after selecting the brightest pixel,
multiply each channel by 1.2 and clamp to 255 if the pixel is non-black
(some channel positive); a black pixel is returned unchanged. -/
def brightBoost (p : Pix) : RGB :=
  if max p.r (max p.g p.b) > 0 then
    ⟨min 255 ((p.r : ℚ) * 1.2),
     min 255 ((p.g : ℚ) * 1.2),
     min 255 ((p.b : ℚ) * 1.2)⟩
  else ⟨(p.r : ℚ), (p.g : ℚ), (p.b : ℚ)⟩

/-! ### Helper lemmas -/

/-- Index of an event. -/
def evIdx : Ev → ℕ
  | Ev.seek i => i
  | Ev.render i => i
  | Ev.progress i => i

theorem runEventsAux_idx_le (k : ℕ) (e : Ev) :
    ∀ rem s, e ∈ runEventsAux k rem s → evIdx e ≤ k := by
  intro rem
  induction rem with
  | zero => intro s he; simp [runEventsAux] at he
  | succ rem ih =>
    intro s he
    rw [runEventsAux] at he
    by_cases hks : k < s
    · rw [if_pos hks] at he; simp at he
    · rw [if_neg hks] at he
      simp only [List.mem_cons] at he
      rcases he with he | he | he | he
      · simp [evIdx, he]; omega
      · simp [evIdx, he]; omega
      · simp [evIdx, he]; omega
      · exact ih (s + 1) he

theorem runEventsAux_mem_of_le (k : ℕ) :
    ∀ rem s, s ≤ k → k < s + rem →
      Ev.render k ∈ runEventsAux k rem s ∧ Ev.progress k ∈ runEventsAux k rem s := by
  intro rem
  induction rem with
  | zero => intro s hs hlt; omega
  | succ rem ih =>
    intro s hs hlt
    rw [runEventsAux, if_neg (by omega)]
    by_cases hsk : s = k
    · subst hsk
      exact ⟨List.mem_cons_of_mem _ (List.mem_cons_self _ _),
        List.mem_cons_of_mem _ (List.mem_cons_of_mem _ (List.mem_cons_self _ _))⟩
    · have h := ih (s + 1) (by omega) (by omega)
      exact ⟨List.mem_cons_of_mem _ (List.mem_cons_of_mem _
          (List.mem_cons_of_mem _ h.1)),
        List.mem_cons_of_mem _ (List.mem_cons_of_mem _
          (List.mem_cons_of_mem _ h.2))⟩

theorem prevArg_nil (index : ℕ) : prevArg [] index = none := by
  unfold prevArg
  split <;> simp

theorem runColorCellsAux_prevA_none (filter : FilterType) :
    ∀ (frames : List (List Pix)) (idx i : ℕ) (p : CellProc),
      (runColorCellsAux filter [] frames idx).get? i = some p → p.prevA = none := by
  intro frames
  induction frames with
  | nil => intro idx i p h; simp [runColorCellsAux] at h
  | cons frame frames ih =>
    intro idx i p h
    rw [runColorCellsAux] at h
    cases i with
    | zero =>
      simp only [List.get?_cons_zero, Option.some.injEq] at h
      rw [← h]
      simp [prevArg_nil]
    | succ i =>
      exact ih (idx + 1) i p h

theorem colLoopAux_spec (row total : ℕ) (duration : ℚ) :
    ∀ (rem col idx : ℕ),
      colLoopAux row total duration rem col idx =
        (((List.range rem).map fun j =>
            CellT.mk row (col + j) (((idx + j : ℕ) : ℚ) / (total : ℚ) * duration)),
          idx + rem) := by
  intro rem
  induction rem with
  | zero => intro col idx; simp [colLoopAux]
  | succ rem ih =>
    intro col idx
    rw [colLoopAux, ih (col + 1) (idx + 1)]
    refine congrArg₂ Prod.mk ?_ (by omega)
    rw [List.range_succ_eq_map, List.map_cons, List.map_map]
    refine congrArg₂ List.cons (by simp) ?_
    refine List.map_congr_left ?_
    intro j hj
    simp only [Function.comp_apply, CellT.mk.injEq]
    refine ⟨trivial, by omega, ?_⟩
    have hn : idx + 1 + j = idx + Nat.succ j := by omega
    rw [hn]

theorem rowLoopAux_spec (cols total : ℕ) (duration : ℚ) (hc : 0 < cols) :
    ∀ (rem row idx : ℕ),
      rowLoopAux cols total duration rem row idx =
        (((List.range (rem * cols)).map fun j =>
            CellT.mk (row + j / cols) (j % cols)
              (((idx + j : ℕ) : ℚ) / (total : ℚ) * duration)),
          idx + rem * cols) := by
  intro rem
  induction rem with
  | zero => intro row idx; simp [rowLoopAux]
  | succ rem ih =>
    intro row idx
    rw [rowLoopAux, colLoopAux_spec row total duration cols 0 idx,
      ih (row + 1) (idx + cols)]
    have hsm : Nat.succ rem * cols = cols + rem * cols := by
      rw [Nat.succ_mul, Nat.add_comm]
    refine congrArg₂ Prod.mk ?_ (by rw [hsm]; ring)
    rw [hsm, List.range_add, List.map_append, List.map_map]
    refine congrArg₂ (· ++ ·) ?_ ?_
    · refine List.map_congr_left ?_
      intro j hj
      rw [List.mem_range] at hj
      simp only [CellT.mk.injEq]
      refine ⟨?_, ?_, trivial⟩
      · rw [Nat.div_eq_of_lt hj]; omega
      · rw [Nat.mod_eq_of_lt hj, Nat.zero_add]
    · refine List.map_congr_left ?_
      intro j hj
      simp only [Function.comp_apply, CellT.mk.injEq]
      refine ⟨?_, ?_, ?_⟩
      · rw [Nat.add_comm cols j, Nat.add_div_right j hc]
        ring
      · rw [Nat.add_mod_left]
      · have hn : idx + cols + j = idx + (cols + j) := by omega
        rw [hn]

theorem RGB.inRange_mk (a b c : ℚ) (ha : 0 ≤ a ∧ a ≤ 255)
    (hb : 0 ≤ b ∧ b ≤ 255) (hc : 0 ≤ c ∧ c ≤ 255) :
    (RGB.mk a b c).inRange :=
  ⟨ha.1, ha.2, hb.1, hb.2, hc.1, hc.2⟩

theorem min255_mem (x : ℚ) (hx : 0 ≤ x) :
    0 ≤ min 255 x ∧ min 255 x ≤ 255 :=
  ⟨le_min (by norm_num) hx, min_le_left 255 x⟩

theorem jsRound_mem (x : ℚ) (h0 : 0 ≤ x) (h255 : x ≤ 255) :
    0 ≤ ((jsRound x : ℤ) : ℚ) ∧ ((jsRound x : ℤ) : ℚ) ≤ 255 := by
  rw [jsRound, round_eq]
  constructor
  · have h : (0 : ℤ) ≤ ⌊x + 1 / 2⌋ := by
      apply Int.le_floor.mpr; push_cast; linarith
    exact_mod_cast h
  · have h : ⌊x + 1 / 2⌋ ≤ (255 : ℤ) := by
      have hm := Int.floor_mono (show x + 1 / 2 ≤ (255 : ℚ) + 1 / 2 by linarith)
      have he : (⌊(255 : ℚ) + 1 / 2⌋ : ℤ) = 255 := by norm_num
      omega
    exact_mod_cast h

theorem rgbToString_mem (c : RGB) (h : c.inRange) : (rgbToString c).inRange := by
  obtain ⟨h1, h2, h3, h4, h5, h6⟩ := h
  exact RGB.inRange_mk _ _ _ (jsRound_mem _ h1 h2) (jsRound_mem _ h3 h4)
    (jsRound_mem _ h5 h6)

theorem enhanceVibrance_mem (rgb : RGB) (h : rgb.inRange) :
    (enhanceVibrance rgb).inRange := by
  obtain ⟨h1, h2, h3, h4, h5, h6⟩ := h
  by_cases hmx : rgbMax rgb = 0
  · rw [enhanceVibrance, if_pos hmx]
    exact ⟨h1, h2, h3, h4, h5, h6⟩
  · rw [enhanceVibrance, if_neg hmx]
    refine RGB.inRange_mk _ _ _ ?_ ?_ ?_
    · exact min255_mem _ (mul_nonneg h1 (by split_ifs <;> norm_num))
    · exact min255_mem _ (mul_nonneg h3 (by split_ifs <;> norm_num))
    · exact min255_mem _ (mul_nonneg h5 (by split_ifs <;> norm_num))

theorem lum_nonneg (p : Pix) : 0 ≤ lum p := by
  unfold lum
  positivity

theorem pix_eq_zero_of_lum_le (p : Pix) (h : lum p ≤ 0) : p = ⟨0, 0, 0⟩ := by
  obtain ⟨r, g, b⟩ := p
  simp only [lum] at h
  have h1 : (0 : ℚ) ≤ (r : ℚ) := Nat.cast_nonneg r
  have h2 : (0 : ℚ) ≤ (g : ℚ) := Nat.cast_nonneg g
  have h3 : (0 : ℚ) ≤ (b : ℚ) := Nat.cast_nonneg b
  have hr : (r : ℚ) = 0 := by nlinarith
  have hg : (g : ℚ) = 0 := by nlinarith
  have hb : (b : ℚ) = 0 := by nlinarith
  simp only [Pix.mk.injEq]
  exact ⟨by exact_mod_cast hr, by exact_mod_cast hg, by exact_mod_cast hb⟩

theorem firstMaxPix_eq_none (ps : List Pix) : firstMaxPix ps = none ↔ ps = [] := by
  cases ps with
  | nil => simp [firstMaxPix]
  | cons p ps => simp [firstMaxPix]

theorem briLoop_of_fm :
    ∀ (ps : List Pix) (q : Pix), firstMaxPix ps = some q →
      ∀ (mx : ℚ) (best : Pix),
        briLoop ps mx best = if lum q > mx then q else best := by
  intro ps
  induction ps with
  | nil => intro q hq; rw [firstMaxPix] at hq; exact Option.noConfusion hq
  | cons p ps ih =>
    intro q hq mx best
    rw [briLoop]
    rw [firstMaxPix, Option.some.injEq] at hq
    cases hfm : firstMaxPix ps with
    | none =>
      have hps : ps = [] := (firstMaxPix_eq_none ps).mp hfm
      rw [hfm, pickFirstMax] at hq
      subst hq
      subst hps
      by_cases hp : lum p > mx
      · rw [if_pos hp, if_pos hp, briLoop]
      · rw [if_neg hp, if_neg hp, briLoop]
    | some q' =>
      rw [hfm, pickFirstMax] at hq
      by_cases hqp : lum q' > lum p
      · rw [if_pos hqp] at hq
        subst hq
        by_cases hp : lum p > mx
        · rw [if_pos hp, ih q' hfm (lum p) p, if_pos hqp,
            if_pos (lt_trans hp hqp)]
        · rw [if_neg hp, ih q' hfm mx best]
      · rw [if_neg hqp] at hq
        subst hq
        by_cases hp : lum p > mx
        · rw [if_pos hp, ih q' hfm (lum p) p, if_neg hqp, if_pos hp]
        · rw [if_neg hp, ih q' hfm mx best, if_neg hp,
            if_neg (fun h => hp (lt_of_lt_of_le h (le_of_not_lt hqp)))]

theorem firstMaxPix_le :
    ∀ (ps : List Pix) (q : Pix), firstMaxPix ps = some q →
      ∀ r ∈ ps, lum r ≤ lum q := by
  intro ps
  induction ps with
  | nil => intro q hq; rw [firstMaxPix] at hq; exact Option.noConfusion hq
  | cons p ps ih =>
    intro q hq r hr
    rw [firstMaxPix, Option.some.injEq] at hq
    rw [List.mem_cons] at hr
    cases hfm : firstMaxPix ps with
    | none =>
      have hps : ps = [] := (firstMaxPix_eq_none ps).mp hfm
      rw [hfm, pickFirstMax] at hq
      subst hq
      subst hps
      rcases hr with hr | hr
      · exact hr ▸ le_rfl
      · exact absurd hr (List.not_mem_nil r)
    | some q' =>
      rw [hfm, pickFirstMax] at hq
      by_cases hqp : lum q' > lum p
      · rw [if_pos hqp] at hq
        subst hq
        rcases hr with hr | hr
        · exact hr ▸ le_of_lt hqp
        · exact ih q' hfm r hr
      · rw [if_neg hqp] at hq
        subst hq
        rcases hr with hr | hr
        · exact hr ▸ le_rfl
        · exact le_trans (ih q' hfm r hr) (le_of_not_lt hqp)

theorem firstMaxPix_first :
    ∀ (ps : List Pix) (q : Pix), firstMaxPix ps = some q →
      ∃ n, ps.get? n = some q ∧
        ∀ m, m < n → ∀ r, ps.get? m = some r → lum r < lum q := by
  intro ps
  induction ps with
  | nil => intro q hq; rw [firstMaxPix] at hq; exact Option.noConfusion hq
  | cons p ps ih =>
    intro q hq
    rw [firstMaxPix, Option.some.injEq] at hq
    cases hfm : firstMaxPix ps with
    | none =>
      rw [hfm, pickFirstMax] at hq
      subst hq
      exact ⟨0, rfl, fun m hm => absurd hm (Nat.not_lt_zero m)⟩
    | some q' =>
      rw [hfm, pickFirstMax] at hq
      by_cases hqp : lum q' > lum p
      · rw [if_pos hqp] at hq
        subst hq
        obtain ⟨n, hn, hlt⟩ := ih q' hfm
        refine ⟨n + 1, hn, ?_⟩
        intro m hm r hr
        cases m with
        | zero =>
          rw [List.get?_cons_zero, Option.some.injEq] at hr
          exact hr ▸ hqp
        | succ m =>
          rw [List.get?_cons_succ] at hr
          exact hlt m (by omega) r hr
      · rw [if_neg hqp] at hq
        subst hq
        exact ⟨0, rfl, fun m hm => absurd hm (Nat.not_lt_zero m)⟩

/-! ### Claims -/

/-- C1 (counterexample): in a color-mode run (fresh mount: the `colors`
state array captured by the effect closure is `[]`) over two one-pixel
frames with the gradient-flow filter, cell 1's previous-color argument is
`undefined`, not cell 0's filtered output `rgb(8, 17, 47)` — refuting the
claim that the previous-color argument for cell `i` equals the filtered
output for cell `i-1`. -/
theorem c1_prev_color_counterexample :
    ¬ (∀ (i : ℕ) (p q : CellProc), 0 < i →
        (runColorCells [[⟨10, 20, 30⟩], [⟨50, 60, 70⟩]] FilterType.gradientFlow
          []).get? i = some p →
        (runColorCells [[⟨10, 20, 30⟩], [⟨50, 60, 70⟩]] FilterType.gradientFlow
          []).get? (i - 1) = some q →
        p.prevA = some q.filtered) := by
  intro h
  have h1 := h 1
    ⟨getBrightestColorStr [⟨50, 60, 70⟩], prevArg [] 1,
      applyColorFilterS (getBrightestColorStr [⟨50, 60, 70⟩])
        FilterType.gradientFlow (prevArg [] 1)⟩
    ⟨getBrightestColorStr [⟨10, 20, 30⟩], prevArg [] 0,
      applyColorFilterS (getBrightestColorStr [⟨10, 20, 30⟩])
        FilterType.gradientFlow (prevArg [] 0)⟩
    (by norm_num) rfl rfl
  have h2 : prevArg [] 1 = some (applyColorFilterS
      (getBrightestColorStr [⟨10, 20, 30⟩]) FilterType.gradientFlow
      (prevArg [] 0)) := h1
  rw [prevArg_nil] at h2
  exact Option.noConfusion h2

/-- C1 (amended): in a color-mode generation run started from the initial
state, the previous-color argument passed to the filter pipeline is read
from the `colors` state array captured by the effect closure, which is
empty — so it is absent (`undefined`) for every cell; the filtered output
of cell `i-1` is never used. -/
theorem c1_prev_color_amended (frames : List (List Pix)) (filter : FilterType)
    (i : ℕ) (p : CellProc)
    (h : (runColorCells frames filter []).get? i = some p) : p.prevA = none :=
  runColorCellsAux_prevA_none filter frames 0 i p h

/-- C1 (witness for the amended theorem): cell 0 of the concrete run. -/
theorem c1_prev_color_amended_witness :
    CellProc.prevA
      ⟨getBrightestColorStr [⟨10, 20, 30⟩], prevArg [] 0,
        applyColorFilterS (getBrightestColorStr [⟨10, 20, 30⟩])
          FilterType.gradientFlow (prevArg [] 0)⟩ = none :=
  c1_prev_color_amended [[⟨10, 20, 30⟩], [⟨50, 60, 70⟩]] FilterType.gradientFlow 0
    ⟨getBrightestColorStr [⟨10, 20, 30⟩], prevArg [] 0,
      applyColorFilterS (getBrightestColorStr [⟨10, 20, 30⟩])
        FilterType.gradientFlow (prevArg [] 0)⟩ rfl

/-- C2 (counterexample): the candidate `(2000/13, 500/7, 500/7)` has
saturation-pushed value exactly `RGB(200, 50, 50)`, and gradient-flow with
previous output `RGB(100, 100, 100)` maps it to `RGB(179, 74, 74)`, not
`RGB(170, 65, 65)` as the claim states — the code also saturation-pushes
the previous color (to `130` per channel) before blending. -/
theorem c2_gradient_flow_counterexample :
    enhanceVibrance ⟨2000 / 13, 500 / 7, 500 / 7⟩ = ⟨200, 50, 50⟩ ∧
    applyGradientFlow ⟨2000 / 13, 500 / 7, 500 / 7⟩ (some ⟨100, 100, 100⟩) ≠
      ⟨170, 65, 65⟩ := by
  constructor
  · norm_num [enhanceVibrance, rgbMax, RGB.mk.injEq]
  · norm_num [applyGradientFlow, enhanceVibrance, rgbMax, rgbToString, jsRound,
      RGB.mk.injEq, round_eq]

/-- C2 (amended): for the gradient-flow filter with a previous output
color `RGB(100, 100, 100)` and a candidate whose saturation-pushed value
is `RGB(200, 50, 50)`, the output is `RGB(179, 74, 74)`: each channel is
0.7 times the pushed candidate plus 0.3 times the saturation-pushed
previous output (130 per channel). -/
theorem c2_gradient_flow_amended (rgb : RGB)
    (h : enhanceVibrance rgb = ⟨200, 50, 50⟩) :
    applyGradientFlow rgb (some ⟨100, 100, 100⟩) = ⟨179, 74, 74⟩ := by
  simp only [applyGradientFlow, h]
  norm_num [enhanceVibrance, rgbMax, rgbToString, jsRound, RGB.mk.injEq, round_eq]

/-- C2 (witness for the amended theorem). -/
theorem c2_gradient_flow_amended_witness :
    applyGradientFlow ⟨2000 / 13, 500 / 7, 500 / 7⟩ (some ⟨100, 100, 100⟩) =
      ⟨179, 74, 74⟩ :=
  c2_gradient_flow_amended ⟨2000 / 13, 500 / 7, 500 / 7⟩
    (by norm_num [enhanceVibrance, rgbMax, RGB.mk.injEq])

/-- C3 (counterexample): the claim implies that when the cancellation flag
is set during cell 0's seek it is observed at the check right after that
suspend point, so neither cell 0's render nor its progress update is
emitted.  The code checks the flag at the top of the loop body, before the
suspend point: in a 2-cell run with the flag raised during cell 0's seek,
cell 0's render IS emitted. -/
theorem c3_cancellation_counterexample :
    ¬ (∀ i : ℕ, 0 ≤ i →
        Ev.render i ∉ runEvents 2 0 ∧ Ev.progress i ∉ runEvents 2 0) := by
  intro h
  exact (h 0 (Nat.zero_le 0)).1 (by decide)

/-- C3 (amended): the cancellation flag is checked at the top of each loop
iteration, before that cell's suspend point.  Once a check observes the
flag — set during cell `k`'s seek, hence observed from iteration `k+1`
on — no further render call and no further progress update is emitted
(no event has index above `k`); but the cell whose seek was in flight
when the flag was set still has its render and progress emitted. -/
theorem c3_cancellation_amended (n k i : ℕ) :
    (k < i → Ev.render i ∉ runEvents n k ∧ Ev.progress i ∉ runEvents n k ∧
      Ev.seek i ∉ runEvents n k) ∧
    (k < n → Ev.render k ∈ runEvents n k ∧ Ev.progress k ∈ runEvents n k) := by
  constructor
  · intro hki
    refine ⟨fun hm => ?_, fun hm => ?_, fun hm => ?_⟩
    · have := runEventsAux_idx_le k (Ev.render i) n 0 hm
      simp [evIdx] at this; omega
    · have := runEventsAux_idx_le k (Ev.progress i) n 0 hm
      simp [evIdx] at this; omega
    · have := runEventsAux_idx_le k (Ev.seek i) n 0 hm
      simp [evIdx] at this; omega
  · intro hkn
    exact runEventsAux_mem_of_le k n 0 (Nat.zero_le k) (by omega)

/-- C3 (witness for the amended theorem): 3-cell run, flag set during
cell 1's seek: cell 2 is never rendered, cell 1 still is. -/
theorem c3_cancellation_amended_witness :
    (Ev.render 2 ∉ runEvents 3 1 ∧ Ev.progress 2 ∉ runEvents 3 1 ∧
      Ev.seek 2 ∉ runEvents 3 1) ∧
    (Ev.render 1 ∈ runEvents 3 1 ∧ Ev.progress 1 ∈ runEvents 3 1) :=
  ⟨(c3_cancellation_amended 3 1 2).1 (by norm_num),
   (c3_cancellation_amended 3 1 2).2 (by norm_num)⟩

/-- C4: for every frame buffer in which some pixel is selected, the
dominant-color extractor returns the pixel maximizing luminance
`Y = 0.299R + 0.587G + 0.114B` — it dominates every pixel of the frame,
and every pixel strictly before it in row-major scan order has strictly
smaller luminance (first-encountered tie-break) — and, if that pixel is
non-black, each channel is multiplied by 1.2 and clamped to 255. -/
theorem c4_brightest_pixel (pixels : List Pix) (q : Pix)
    (hq : firstMaxPix pixels = some q) :
    (∀ r ∈ pixels, lum r ≤ lum q) ∧
    (∃ n, pixels.get? n = some q ∧
      ∀ m, m < n → ∀ r, pixels.get? m = some r → lum r < lum q) ∧
    getBrightestColor pixels = brightBoost q := by
  refine ⟨firstMaxPix_le pixels q hq, firstMaxPix_first pixels q hq, ?_⟩
  simp only [getBrightestColor]
  rw [briLoop_of_fm pixels q hq 0 ⟨0, 0, 0⟩]
  by_cases h0 : lum q > 0
  · rw [if_pos h0]
    rfl
  · rw [if_neg h0]
    have hq0 : q = ⟨0, 0, 0⟩ := pix_eq_zero_of_lum_le q (le_of_not_lt h0)
    rw [hq0]
    rfl

/-- C4 (witness): a two-pixel frame whose second pixel is the brighter. -/
theorem c4_brightest_pixel_witness :
    (∀ r ∈ [Pix.mk 1 2 3, Pix.mk 10 10 10], lum r ≤ lum ⟨10, 10, 10⟩) ∧
    (∃ n, [Pix.mk 1 2 3, Pix.mk 10 10 10].get? n = some ⟨10, 10, 10⟩ ∧
      ∀ m, m < n → ∀ r, [Pix.mk 1 2 3, Pix.mk 10 10 10].get? m = some r →
        lum r < lum ⟨10, 10, 10⟩) ∧
    getBrightestColor [Pix.mk 1 2 3, Pix.mk 10 10 10] =
      brightBoost ⟨10, 10, 10⟩ :=
  c4_brightest_pixel [⟨1, 2, 3⟩, ⟨10, 10, 10⟩] ⟨10, 10, 10⟩
    (by norm_num [firstMaxPix, pickFirstMax, lum])

/-- C5: cells are processed in row-major order — in a grid of `rows` rows
and `cols` columns, cell index `i` lies at row `i / cols` and column
`i % cols` — and the frame for cell `i` is sampled at timestamp
`i / (rows * cols) * duration`. -/
theorem c5_row_major (rows cols : ℕ) (duration : ℚ) (i : ℕ) (hc : 0 < cols)
    (hi : i < rows * cols) :
    (genCells rows cols duration).get? i =
      some ⟨i / cols, i % cols,
        (i : ℚ) / ((rows * cols : ℕ) : ℚ) * duration⟩ := by
  rw [genCells, rowLoopAux_spec cols (rows * cols) duration hc rows 0 0]
  simp only [List.get?_map, List.get?_range hi, Option.map_some]
  simp

/-- C5 (witness): in a 2 × 3 grid with duration 6, cell 4 is at row 1,
column 1, sampled at timestamp 4. -/
theorem c5_row_major_witness :
    (genCells 2 3 6).get? 4 =
      some ⟨4 / 3, 4 % 3, ((4 : ℕ) : ℚ) / ((2 * 3 : ℕ) : ℚ) * 6⟩ :=
  c5_row_major 2 3 6 4 (by norm_num) (by norm_num)

/-- C6: for every filter kind and every input color with all three
channels in [0, 255] (and, for gradient-flow, every present previous
color with channels in [0, 255]), every channel of the output color lies
in [0, 255]. -/
theorem c6_output_clamped (filter : FilterType) (rgb : RGB) (prev : Option RGB)
    (h : rgb.inRange) (hp : ∀ p, prev = some p → p.inRange) :
    (applyColorFilter rgb filter prev).inRange := by
  obtain ⟨h1, h2, h3, h4, h5, h6⟩ := h
  cases filter with
  | vibrant =>
    simp only [applyColorFilter, applyVibrantFilter]
    obtain ⟨e1, e2, e3, e4, e5, e6⟩ :=
      enhanceVibrance_mem rgb ⟨h1, h2, h3, h4, h5, h6⟩
    apply rgbToString_mem
    refine RGB.inRange_mk _ _ _ ?_ ?_ ?_
    · exact min255_mem _ (mul_nonneg e1 (by split_ifs <;> norm_num))
    · exact min255_mem _ (mul_nonneg e3 (by split_ifs <;> norm_num))
    · exact min255_mem _ (mul_nonneg e5 (by split_ifs <;> norm_num))
  | dynamic =>
    simp only [applyColorFilter, applyDynamicFilter]
    apply rgbToString_mem
    refine RGB.inRange_mk _ _ _ ?_ ?_ ?_ <;>
      exact min255_mem _ (le_max_left 0 _)
  | contrast =>
    simp only [applyColorFilter, applyContrastFilter]
    apply rgbToString_mem
    refine RGB.inRange_mk _ _ _ ?_ ?_ ?_
    · split_ifs with hc
      · exact min255_mem _ (mul_nonneg h1 (by norm_num))
      · exact ⟨div_nonneg h1 (by norm_num),
          le_trans (div_le_self h1 (by norm_num)) h2⟩
    · split_ifs with hc
      · exact min255_mem _ (mul_nonneg h3 (by norm_num))
      · exact ⟨div_nonneg h3 (by norm_num),
          le_trans (div_le_self h3 (by norm_num)) h4⟩
    · split_ifs with hc
      · exact min255_mem _ (mul_nonneg h5 (by norm_num))
      · exact ⟨div_nonneg h5 (by norm_num),
          le_trans (div_le_self h5 (by norm_num)) h6⟩
  | neon =>
    simp only [applyColorFilter, applyNeonFilter]
    apply rgbToString_mem
    refine RGB.inRange_mk _ _ _ ?_ ?_ ?_
    · split_ifs with hc
      · exact min255_mem _ (mul_nonneg h1 (by norm_num))
      · exact ⟨mul_nonneg h1 (by norm_num), by nlinarith⟩
    · split_ifs with hc
      · exact min255_mem _ (mul_nonneg h3 (by norm_num))
      · exact ⟨mul_nonneg h3 (by norm_num), by nlinarith⟩
    · split_ifs with hc
      · exact min255_mem _ (mul_nonneg h5 (by norm_num))
      · exact ⟨mul_nonneg h5 (by norm_num), by nlinarith⟩
  | gradientFlow =>
    cases prev with
    | none =>
      exact rgbToString_mem _
        (enhanceVibrance_mem rgb ⟨h1, h2, h3, h4, h5, h6⟩)
    | some p =>
      simp only [applyColorFilter, applyGradientFlow]
      obtain ⟨e1, e2, e3, e4, e5, e6⟩ :=
        enhanceVibrance_mem rgb ⟨h1, h2, h3, h4, h5, h6⟩
      obtain ⟨q1, q2, q3, q4, q5, q6⟩ := enhanceVibrance_mem p (hp p rfl)
      apply rgbToString_mem
      refine RGB.inRange_mk _ _ _ ?_ ?_ ?_
      · exact ⟨by nlinarith, by nlinarith⟩
      · exact ⟨by nlinarith, by nlinarith⟩
      · exact ⟨by nlinarith, by nlinarith⟩
  | frameBased => exact ⟨h1, h2, h3, h4, h5, h6⟩
  | noFilter => exact ⟨h1, h2, h3, h4, h5, h6⟩

/-- C6 (witness): the vibrant filter on `RGB(10, 20, 30)` stays in
range. -/
theorem c6_output_clamped_witness :
    (applyColorFilter ⟨10, 20, 30⟩ FilterType.vibrant none).inRange :=
  c6_output_clamped FilterType.vibrant ⟨10, 20, 30⟩ none (by decide)
    (fun p hp => Option.noConfusion hp)

/-- C7: the contrast filter transforms each channel independently — a
channel strictly above 128 is multiplied by 1.4 and clamped to 255, a
channel at or below 128 is divided by 1.4 — and on input `RGB(200, 50, 10)`
the output is `RGB(255, 36, 7)` after rounding. -/
theorem c7_contrast_filter :
    (∀ rgb : RGB, applyContrastFilter rgb =
      ⟨contrastChannel rgb.r, contrastChannel rgb.g, contrastChannel rgb.b⟩) ∧
    applyContrastFilter ⟨200, 50, 10⟩ = ⟨255, 36, 7⟩ := by
  constructor
  · intro rgb
    simp only [applyContrastFilter, rgbToString, contrastChannel]
    split_ifs <;> rfl
  · norm_num [applyContrastFilter, rgbToString, jsRound, RGB.mk.injEq, round_eq]

/-- C8: for every filter kind except gradient-flow, the filter application
is a pure function of the candidate color alone: any two values of the
optional previous-color argument (including absent) give identical
outputs, and equal inputs give equal outputs. -/
theorem c8_prev_independent (filter : FilterType)
    (h : filter ≠ FilterType.gradientFlow) :
    (∀ (rgb : RGB) (p1 p2 : Option RGB),
      applyColorFilter rgb filter p1 = applyColorFilter rgb filter p2) ∧
    (∀ (rgb1 rgb2 : RGB) (p1 p2 : Option RGB), rgb1 = rgb2 →
      applyColorFilter rgb1 filter p1 = applyColorFilter rgb2 filter p2) := by
  have key : ∀ (rgb : RGB) (p1 p2 : Option RGB),
      applyColorFilter rgb filter p1 = applyColorFilter rgb filter p2 := by
    intro rgb p1 p2
    cases filter <;> first | rfl | exact absurd rfl h
  exact ⟨key, fun rgb1 rgb2 p1 p2 he => he ▸ key rgb1 p1 p2⟩

/-- C8 (witness): the contrast filter ignores the previous color. -/
theorem c8_prev_independent_witness :
    applyColorFilter ⟨1, 2, 3⟩ FilterType.contrast none =
      applyColorFilter ⟨1, 2, 3⟩ FilterType.contrast (some ⟨9, 9, 9⟩) :=
  (c8_prev_independent FilterType.contrast (by decide)).1 ⟨1, 2, 3⟩ none
    (some ⟨9, 9, 9⟩)

/-- C10: every channel tied for the maximum is boosted — ×1.5 (clamped to
255) by the neon filter, ×1.3 (clamped to 255) by the saturation-push
stage — and for a gray input `(v, v, v)` with `v > 0` the neon filter
outputs `min(255, 1.5v)` (rounded) in all three channels; no channel is
suppressed by 0.6. -/
theorem c10_neon_ties (rgb : RGB) (v : ℚ) (_hv : 0 < v) :
    (rgb.r = rgbMax rgb →
      (applyNeonFilter rgb).r = ((jsRound (min 255 (rgb.r * 1.5)) : ℤ) : ℚ) ∧
      (enhanceVibrance rgb).r = min 255 (rgb.r * 1.3)) ∧
    (rgb.g = rgbMax rgb →
      (applyNeonFilter rgb).g = ((jsRound (min 255 (rgb.g * 1.5)) : ℤ) : ℚ) ∧
      (enhanceVibrance rgb).g = min 255 (rgb.g * 1.3)) ∧
    (rgb.b = rgbMax rgb →
      (applyNeonFilter rgb).b = ((jsRound (min 255 (rgb.b * 1.5)) : ℤ) : ℚ) ∧
      (enhanceVibrance rgb).b = min 255 (rgb.b * 1.3)) ∧
    applyNeonFilter ⟨v, v, v⟩ =
      ⟨((jsRound (min 255 (v * 1.5)) : ℤ) : ℚ),
       ((jsRound (min 255 (v * 1.5)) : ℤ) : ℚ),
       ((jsRound (min 255 (v * 1.5)) : ℤ) : ℚ)⟩ := by
  refine ⟨fun hr => ⟨?_, ?_⟩, fun hg => ⟨?_, ?_⟩, fun hb => ⟨?_, ?_⟩, ?_⟩
  · simp [applyNeonFilter, rgbToString, jsRound, if_pos hr]
  · by_cases hmx : rgbMax rgb = 0
    · rw [enhanceVibrance, if_pos hmx, hr, hmx]; norm_num
    · rw [enhanceVibrance, if_neg hmx]; simp [if_pos hr]
  · simp [applyNeonFilter, rgbToString, jsRound, if_pos hg]
  · by_cases hmx : rgbMax rgb = 0
    · rw [enhanceVibrance, if_pos hmx, hg, hmx]; norm_num
    · rw [enhanceVibrance, if_neg hmx]; simp [if_pos hg]
  · simp [applyNeonFilter, rgbToString, jsRound, if_pos hb]
  · by_cases hmx : rgbMax rgb = 0
    · rw [enhanceVibrance, if_pos hmx, hb, hmx]; norm_num
    · rw [enhanceVibrance, if_neg hmx]; simp [if_pos hb]
  · simp [applyNeonFilter, rgbToString, jsRound, rgbMax, max_self]

/-- C9: for every input string in which the pattern
`rgb\((\d+),\s*(\d+),\s*(\d+)\)` matches nowhere, `parseRGB` yields
`RGB(0, 0, 0)`, and applying any non-passthrough filter to such a
malformed color string returns that filter's output for black
(`rgb(0, 0, 0)`) — a normal color string, not an error. -/
theorem c9_malformed_parses_black (s : String)
    (h : findMatch s.toList = none) (filter : FilterType)
    (hf : filter = FilterType.vibrant ∨ filter = FilterType.dynamic ∨
      filter = FilterType.contrast ∨ filter = FilterType.neon ∨
      filter = FilterType.gradientFlow) (prev : Option String) :
    parseRGB s = ⟨0, 0, 0⟩ ∧
    applyColorFilterS s filter prev =
      applyColorFilterS "rgb(0, 0, 0)" filter prev := by
  have hs : parseRGB s = ⟨0, 0, 0⟩ := by rw [parseRGB, h]
  have hblack : parseRGB "rgb(0, 0, 0)" = ⟨0, 0, 0⟩ := by rfl
  refine ⟨hs, ?_⟩
  rcases hf with hf | hf | hf | hf | hf <;>
    · subst hf
      simp only [applyColorFilterS, hs, hblack]

/-- C9 (witness): the string "hello" matches nowhere; the contrast filter
maps it to the contrast output for black. -/
theorem c9_malformed_parses_black_witness :
    parseRGB "hello" = ⟨0, 0, 0⟩ ∧
    applyColorFilterS "hello" FilterType.contrast none =
      applyColorFilterS "rgb(0, 0, 0)" FilterType.contrast none :=
  c9_malformed_parses_black "hello" (by rfl) FilterType.contrast
    (Or.inr (Or.inr (Or.inl rfl))) none

/-- C10 (witness): all three channels of `RGB(9, 9, 9)` are tied for the
maximum, and the gray input 9 is positive. -/
theorem c10_neon_ties_witness :
    ((applyNeonFilter ⟨9, 9, 9⟩).r =
        ((jsRound (min 255 ((9 : ℚ) * 1.5)) : ℤ) : ℚ) ∧
      (enhanceVibrance ⟨9, 9, 9⟩).r = min 255 ((9 : ℚ) * 1.3)) ∧
    applyNeonFilter ⟨9, 9, 9⟩ =
      ⟨((jsRound (min 255 ((9 : ℚ) * 1.5)) : ℤ) : ℚ),
       ((jsRound (min 255 ((9 : ℚ) * 1.5)) : ℤ) : ℚ),
       ((jsRound (min 255 ((9 : ℚ) * 1.5)) : ℤ) : ℚ)⟩ :=
  ⟨(c10_neon_ties ⟨9, 9, 9⟩ 9 (by norm_num)).1 (by norm_num [rgbMax]),
   (c10_neon_ties ⟨9, 9, 9⟩ 9 (by norm_num)).2.2.2⟩

end VCP
